import Mathlib

/-!
A verification development for the version-bump utility in
`src/asf/example/__init__.py`.  The Python source is shallowly embedded:
pure logic becomes Lean functions, process-exiting error reports
(`report_error_and_exit`, which prints and raises `SystemExit(2)`) become
`Except` errors of kind `PyErr.exit`, and uncaught Python exceptions become
`Except` errors of kind `PyErr.raised`.  File-system and git effects are
modelled by explicit state passing below.
-/

/-- Outcomes of Python error paths: `exit msg` models `report_error_and_exit
(msg)` (print to stderr, `SystemExit(2)`); `raised name` models an uncaught
Python exception of the given kind propagating out of the function. -/
inductive PyErr where
  | exit (msg : String)
  | raised (msg : String)
deriving DecidableEq, Repr

/-- Embeds the frozen dataclass `HeadVersion(major, minor, patch, dev)`:
a semantic version with an optional dev counter (`dev = none` models
`dev is None` in Python). -/
structure HeadVersion where
  major : Nat
  minor : Nat
  patch : Nat
  dev : Option Nat
deriving DecidableEq, Repr

/-- The decimal digit characters, as produced by Python decimal formatting. -/
def digitChar : Nat → Char
  | 0 => '0'
  | 1 => '1'
  | 2 => '2'
  | 3 => '3'
  | 4 => '4'
  | 5 => '5'
  | 6 => '6'
  | 7 => '7'
  | 8 => '8'
  | 9 => '9'
  | _ => '*'

/-- Decimal rendering of a natural number as done by a Python f-string
interpolation of an `int`: most significant digit first, no leading zeros,
no sign.  The first argument is recursion fuel (any value above the number
itself suffices). -/
def natReprAux : Nat → Nat → List Char
  | 0, _ => []
  | fuel + 1, n => if n < 10 then [digitChar n] else natReprAux fuel (n / 10) ++ [digitChar (n % 10)]

/-- Decimal rendering of a natural number, e.g. `natReprChars 10 = ['1', '0']`. -/
def natReprChars (n : Nat) : List Char := natReprAux (n + 1) n

/-- The character sequence of `HeadVersion.__str__`:
`f"{major}.{minor}.{patch}"` when `dev is None`, else
`f"{major}.{minor}.{patch}-dev{dev}"`. -/
def hvChars (v : HeadVersion) : List Char :=
  match v.dev with
  | none => natReprChars v.major ++ '.' :: (natReprChars v.minor ++ '.' :: natReprChars v.patch)
  | some d =>
      natReprChars v.major ++ '.' :: (natReprChars v.minor ++ '.' ::
        (natReprChars v.patch ++ '-' :: 'd' :: 'e' :: 'v' :: natReprChars d))

/-- `HeadVersion.__str__` from the source: the canonical text of a version. -/
def HeadVersion.str (v : HeadVersion) : String := String.mk (hvChars v)

/-- `ZERO_VERSION_SENTINEL = HeadVersion(major=0, minor=0, patch=0, dev=None)`. -/
def ZERO_VERSION_SENTINEL : HeadVersion := ⟨0, 0, 0, none⟩

/-- The `BumpMode` enumeration from the source. -/
inductive BumpMode where
  | RELEASE
  | DEV
  | SPECIFIC
deriving DecidableEq, Repr

/-- The numeric value of a big-endian decimal digit string, as computed by
Python `int()` applied to a regex group of `\d` characters (`'0'` has code
point 48). -/
def digitsVal (l : List Char) : Nat := l.foldl (fun a c => 10 * a + (c.toNat - 48)) 0

/-- Splits a character list into its longest digit prefix and the rest.
This implements the greedy matching of a `\d+` regex atom: in the pattern
`(\d+)\.(\d+)\.(\d+)(?:-dev(\d+))?` every `\d+` group is followed by a
character that is not a digit (a dot, a dash, or the end of input), so the
greedy longest-digit-run match is the only possible match. -/
def spanDigits (l : List Char) : List Char × List Char :=
  (l.takeWhile Char.isDigit, l.dropWhile Char.isDigit)

/-- Consumes an exact literal from the front of the input, or fails. -/
def dropLit : List Char → List Char → Option (List Char)
  | [], r => some r
  | _ :: _, [] => none
  | c :: cs, d :: ds => if c = d then dropLit cs ds else none

/-- One `(\d+)` group followed by `int()` on the captured text: consumes
the longest nonempty digit run and returns its numeric value. -/
def parseNum (l : List Char) : Option (Nat × List Char) :=
  match spanDigits l with
  | (a, r) => if a = [] then none else some (digitsVal a, r)

/-- Consumes one expected character from the front of the input. -/
def expectChar (ch : Char) : List Char → Option (List Char)
  | [] => none
  | c :: rest => if c = ch then some rest else none

/-- The character-level matcher for
`re.fullmatch(r"(\d+)\.(\d+)\.(\d+)(?:-dev(\d+))?", version)` from
`parse_version`, returning the `HeadVersion` built from the four groups via
`int()`.  Digits are modelled as the ASCII digits `0`-`9` (Python `\d` also
admits other Unicode decimal digits; no version text in this system uses
them). -/
def parseChars (l : List Char) : Option HeadVersion :=
  match parseNum l with
  | none => none
  | some (major, r1) =>
    match expectChar '.' r1 with
    | none => none
    | some r2 =>
      match parseNum r2 with
      | none => none
      | some (minor, r3) =>
        match expectChar '.' r3 with
        | none => none
        | some r4 =>
          match parseNum r4 with
          | none => none
          | some (patch, r5) =>
            match r5 with
            | [] => some ⟨major, minor, patch, none⟩
            | _ =>
              match dropLit ['-', 'd', 'e', 'v'] r5 with
              | none => none
              | some r6 =>
                match parseNum r6 with
                | none => none
                | some (dev, r7) =>
                  match r7 with
                  | [] => some ⟨major, minor, patch, some dev⟩
                  | _ => none

/-- `parse_version` from the source: on a regex mismatch it calls
`report_error_and_exit(f"unsupported version format: {version}")`. -/
def parse_version (version : String) : Except PyErr HeadVersion :=
  match parseChars version.data with
  | some h => .ok h
  | none => .error (.exit ( "unsupported version format: " ++ version))

/-- A tomlkit item as far as this program inspects one: a string value, a
table (an ordered key/value association, as tomlkit preserves entry order),
or any other item kind (integer, array, array-of-tables, ...), which the
program only ever treats as "not a table / not a string".  Parsing and
serialising TOML text (`tomlkit.parse` / `tomlkit.dumps`) are external
collaborators; blobs and documents are modelled at this structured level. -/
inductive Toml where
  | str (s : String)
  | table (entries : List (String × Toml))
  | other

/-- A top-level TOML document body (tomlkit always parses to a table). -/
def TomlTable : Type := List (String × Toml)

/-- Dict-style lookup: the value at the first entry with the given key
(TOML forbids duplicate keys, so at most one exists). -/
def lookupToml : List (String × Toml) → String → Option Toml
  | [], _ => none
  | (k1, v1) :: rest, k => if k1 = k then some v1 else lookupToml rest k

/-- Dict-style update `container[k] = v`: replaces the value at an existing
key in place, else appends a new entry at the end (tomlkit order). -/
def setKey : List (String × Toml) → String → Toml → List (String × Toml)
  | [], k, v => [(k, v)]
  | (k1, v1) :: rest, k, v => if k1 = k then (k1, v) :: rest else (k1, v1) :: setKey rest k v

/-- Whether a tomlkit item is a `tomlkit.items.Table`. -/
def Toml.isTable : Toml → Bool
  | .table _ => true
  | _ => false

/-- Python `section.split(".")`: splits on every dot, keeping empty pieces
(so the result is always nonempty). -/
def splitOnDotAux : List Char → List Char → List String
  | [], acc => [String.mk acc.reverse]
  | c :: cs, acc => if c = '.' then String.mk acc.reverse :: splitOnDotAux cs [] else splitOnDotAux cs (c :: acc)

/-- Python `section.split(".")` on a string. -/
def splitOnDot (s : String) : List String := splitOnDotAux s.data []

/-- The descent loop of `replace_key_in_section`, one iteration per path
part.  For each part the code fetches the entry; when the entry is absent
*or is not a table* it overwrites the entry with a fresh empty table
(`current[part] = tomlkit.table()`) and re-fetches it; it then re-checks
`isinstance(item, Table)` and calls `report_error_and_exit` when that fails
(the source comments this branch "Should be impossible").  After the loop,
`current[key] = value` sets a string value.  Python mutates the shared
document in place; this functional version writes the mutated subtable back
into its parent, which is the same document transformation. -/
def replaceDescend : List (String × Toml) → List String → String → String → Except PyErr (List (String × Toml))
  | t, [], key, value => .ok (setKey t key (.str value))
  | t, p :: rest, key, value =>
    let fetched := match lookupToml t p with
      | some it => if it.isTable then it else .table []
      | none => .table []
    match fetched with
    | .table s =>
      match replaceDescend s rest key value with
      | .ok s2 => .ok (setKey t p (.table s2))
      | .error e => .error e
    | _ => .error (.exit "expected table, got non-table")

/-- `replace_key_in_section(text, section, key, value)` at the structured
level: the edited document that `tomlkit.dumps` would then serialise. -/
def replace_key_in_section (doc : TomlTable) (sectionPath : String) (key : String) (value : String) : Except PyErr TomlTable :=
  replaceDescend doc (splitOnDot sectionPath) key value

/-- What `repo.revparse_single("HEAD:pyproject.toml")` yields: a blob whose
decoded TOML document body is given (content that fails UTF-8 decoding or
TOML parsing would raise out of `read_head_version` and is outside this
model), or a non-blob object (e.g. a tree, when the path is a directory). -/
inductive GitObject where
  | blob (doc : List (String × Toml))
  | nonBlob

/-- The slice of a pygit2 repository that `read_head_version` consults:
whether it is bare, and the object at `HEAD:pyproject.toml` (`none` models
`revparse_single` raising, e.g. because the path or HEAD does not exist at
the history tip). -/
structure Repo where
  is_bare : Bool
  head_pyproject : Option GitObject

/-- `read_head_version` from the source: bare repositories are rejected; a
failing `revparse_single` yields `ZERO_VERSION_SENTINEL`; a non-blob object
is reported as not a regular file; then `data.get("project", {}).get
("version")` must be a `str` (a non-table `project` entry has no `.get`
attribute, so Python raises `AttributeError` there), and the version text
is parsed with `parse_version`. -/
def read_head_version (repo : Repo) : Except PyErr HeadVersion :=
  if repo.is_bare then .error (.exit "a working tree, not a bare git repository, is required")
  else
    match repo.head_pyproject with
    | none => .ok ZERO_VERSION_SENTINEL
    | some .nonBlob => .error (.exit "pyproject.toml is in HEAD, but not a regular file")
    | some (.blob doc) =>
      match lookupToml doc "project" with
      | none => .error (.exit "version missing in pyproject.toml in HEAD")
      | some (.table proj) =>
        match lookupToml proj "version" with
        | some (.str s) => parse_version s
        | _ => .error (.exit "version missing in pyproject.toml in HEAD")
      | some _ => .error (.raised "AttributeError")

/-- `calculate_bumped_version(repository, mode, specific)` from the source:
returns the pair `(head_version, bumped_version_text)`.  The SPECIFIC arm
never consults the repository and returns the sentinel with the caller's
string verbatim; the RELEASE and DEV arms read the head version and apply
the patch/dev arithmetic of the source. -/
def calculate_bumped_version (repository : Repo) (mode : BumpMode) (specific : Option String) : Except PyErr (HeadVersion × String) :=
  match mode with
  | .SPECIFIC =>
    match specific with
    | none => .error (.exit "specific version required")
    | some v => .ok (ZERO_VERSION_SENTINEL, v)
  | .RELEASE =>
    match read_head_version repository with
    | .error e => .error e
    | .ok h =>
      match h.dev with
      | some _ => .ok (h, HeadVersion.str ⟨h.major, h.minor, h.patch, none⟩)
      | none => .ok (h, HeadVersion.str ⟨h.major, h.minor, h.patch + 1, none⟩)
  | .DEV =>
    match read_head_version repository with
    | .error e => .error e
    | .ok h =>
      match h.dev with
      | none => .ok (h, HeadVersion.str ⟨h.major, h.minor, h.patch + 1, some 1⟩)
      | some d => .ok (h, HeadVersion.str ⟨h.major, h.minor, h.patch, some (d + 1)⟩)

/-- The characters matched by Python's regex class `\s` on `str` patterns
(the `str.isspace` set). -/
def isPySpace (c : Char) : Bool :=
  [' ', '\t', '\n', '\r', '\x0b', '\x0c', '\x1c', '\x1d', '\x1e', '\x1f',
   '\u0085', '\u00a0', '\u1680', '\u2000', '\u2001', '\u2002', '\u2003', '\u2004',
   '\u2005', '\u2006', '\u2007', '\u2008', '\u2009', '\u200a', '\u2028', '\u2029',
   '\u202f', '\u205f', '\u3000'].contains c

/-- The suffix check of the version-line pattern: after the opening quote,
`.*?"\s*\n?` must consume the whole rest `s` of the line.  Under
`re.fullmatch`, backtracking makes this succeed exactly when `s` splits as
`body ++ quote ++ ws` where `body` has no newline (`.` does not match a
newline; it may match further quote characters) and `ws` is all whitespace
(`\n` is itself in `\s`, so `\s*\n?` accepts exactly the all-whitespace
strings).  Since a quote is not whitespace, the splitting quote must be the
last quote of `s`: this check strips the maximal whitespace suffix, demands
a quote right before it, and demands no newline earlier in the line. -/
def versionLineTail (s : List Char) : Bool :=
  match s.reverse.dropWhile isPySpace with
  | '"' :: bodyRev => !(bodyRev.contains '\n')
  | _ => false

/-- The literal `VERSION:` opening the pattern. -/
def litVERSION : List Char := ['V', 'E', 'R', 'S', 'I', 'O', 'N', ':']

/-- The literal `Final[str]` of the pattern. -/
def litFinal : List Char := ['F', 'i', 'n', 'a', 'l', '[', 's', 't', 'r', ']']

/-- `re.fullmatch(version_pattern, line)` from `update_init_version`, with
`version_pattern = VERSION:\s*Final\[str\]\s*=\s*".*?"\s*\n?` (a raw string
in the source).  Each `\s*` before a literal is greedy and the following
literal starts with a non-whitespace character, so skipping the maximal
whitespace run is the only possible match. -/
def fullmatchVersionLine (line : String) : Bool :=
  match dropLit litVERSION line.data with
  | none => false
  | some r1 =>
    match dropLit litFinal (r1.dropWhile isPySpace) with
    | none => false
    | some r2 =>
      match dropLit ['='] (r2.dropWhile isPySpace) with
      | none => false
      | some r3 =>
        match dropLit ['"'] (r3.dropWhile isPySpace) with
        | none => false
        | some s => versionLineTail s

/-- The replacement line the transform writes:
`f'VERSION: Final[str] = "{bumped_version}"\n'`. -/
def newVersionLine (bumped_version : String) : String :=
  "VERSION: Final[str] = \"" ++ bumped_version ++ "\"\n"

/-- The line loop of `update_init_version`: each source line (with its
terminator) is copied through, except that the first line matching the
version pattern is replaced by the freshly rendered assignment line; the
`replaced` flag ensures the replacement happens at most once. -/
def initTransformLines (bumped_version : String) : Bool → List String → List String
  | _, [] => []
  | replaced, l :: ls =>
    if !replaced && fullmatchVersionLine l
    then newVersionLine bumped_version :: initTransformLines bumped_version true ls
    else l :: initTransformLines bumped_version replaced ls

/-- Splits text into lines the way Python file iteration does on a file
opened with `newline=""` (universal-newline recognition without
translation): a line ends at a bare line feed, at a carriage-return plus
line-feed pair, or at a bare carriage return, and the terminator stays part
of the line untranslated; a last piece without a terminator is kept (an
empty trailing piece is not produced). -/
def splitLinesAux : List Char → List Char → List String
  | [], acc => if acc = [] then [] else [String.mk acc.reverse]
  | ['\r'], acc => [String.mk (acc.reverse ++ ['\r'])]
  | '\r' :: '\n' :: cs, acc => String.mk (acc.reverse ++ ['\r', '\n']) :: splitLinesAux cs []
  | '\r' :: c :: cs, acc => String.mk (acc.reverse ++ ['\r']) :: splitLinesAux (c :: cs) []
  | c :: cs, acc =>
    if c = '\n' then String.mk (acc.reverse ++ ['\n']) :: splitLinesAux cs []
    else splitLinesAux cs (c :: acc)

/-- Python file iteration over a whole content string. -/
def splitLines (s : String) : List String := splitLinesAux s.data []

/-- The concatenation written by the successive `tmp.write` calls. -/
def concatLines (ls : List String) : String :=
  String.mk (ls.foldr (fun s r => s.data ++ r) [])

/-- The content-level transform of `update_init_version`: read the target
line by line, replace the first pattern match, concatenate into the
temporary file. -/
def update_init_content (bumped_version : String) (content : String) : String :=
  concatLines (initTransformLines bumped_version false (splitLines content))

/-- Fault injection for one run of a per-file update: `transformError` set
means some I/O exception is raised inside the `with` block while reading
the target or writing the temporary file (carrying the exception text);
`replaceError` set means `os.replace` raises (carrying the exception text);
`removeOk` tells whether the best-effort `os.remove` of the temporary file
in the handler succeeds. -/
structure IOFault where
  transformError : Option String
  replaceError : Option String
  removeOk : Bool

/-- Observable file-system outcome of one per-file update: the content of
the target file (of type `α`: raw text for the source constant file, a
structured document for the manifest) and whether a temporary file is left
behind in the target directory. -/
structure FileState (α : Type) where
  target : α
  tempRemains : Bool
deriving Repr

/-- `update_init_version(bumped_version)` over the target content and a
fault injection.  Success renames the transformed temporary file onto the
target; on an exception during transform or replace, the handler removes
the temporary file best-effort (swallowing any removal failure) and calls
`report_error_and_exit` with a fixed message that does not mention the
causing exception. -/
def update_init_version (bumped_version : String) (content : String) (io : IOFault) : FileState String × Except PyErr Unit :=
  match io.transformError with
  | some _ =>
    (⟨content, !io.removeOk⟩, .error (.exit "failed to update VERSION constant in __init__.py"))
  | none =>
    match io.replaceError with
    | some _ =>
      (⟨content, !io.removeOk⟩, .error (.exit "failed to update VERSION constant in __init__.py"))
    | none => (⟨update_init_content bumped_version content, false⟩, .ok ())

/-- The content-level transform of `update_pyproject_version`: set
`project.version` to the bumped version and `tool.uv.exclude-newer` to the
current UTC timestamp text (the timestamp is a parameter here; its
formatting by `strftime` is outside the model). -/
def update_pyproject_content (bumped_version : String) (now : String) (doc : TomlTable) : Except PyErr TomlTable :=
  match replace_key_in_section doc "project" "version" bumped_version with
  | .error e => .error e
  | .ok d1 => replace_key_in_section d1 "tool.uv" "exclude-newer" now

/-- `update_pyproject_version(bumped_version)` over the target document and
a fault injection.  Note: `report_error_and_exit` raises `SystemExit`,
which `except Exception` does not catch, so an error escaping
`replace_key_in_section` would skip the temporary-file cleanup; every other
failure is caught, the temporary file is removed best-effort, and the
reported message embeds the causing exception text. -/
def update_pyproject_version (bumped_version : String) (now : String) (doc : TomlTable) (io : IOFault) : FileState TomlTable × Except PyErr Unit :=
  match io.transformError with
  | some e =>
    (⟨doc, !io.removeOk⟩,
     .error (.exit ( "failed to update pyproject.toml: " ++ e ++ "; project may be in an inconsistent version state")))
  | none =>
    match update_pyproject_content bumped_version now doc with
    | .error pe => (⟨doc, true⟩, .error pe)
    | .ok newDoc =>
      match io.replaceError with
      | some e =>
        (⟨doc, !io.removeOk⟩,
         .error (.exit ( "failed to update pyproject.toml: " ++ e ++ "; project may be in an inconsistent version state")))
      | none => (⟨newDoc, false⟩, .ok ())

/-- A nonempty sequence of (ASCII) decimal digit characters: the language
of the regex atom `\d+`. -/
def isDigitSeq (l : List Char) : Prop := l ≠ [] ∧ ∀ c ∈ l, c.isDigit = true

/-- The language of the version grammar `\d+\.\d+\.\d+(-dev\d+)?` from the
specification, stated independently of the parser as an existence of a
decomposition into digit runs and literal separators. -/
def matchesGrammar (v : String) : Prop :=
  ∃ a b c : List Char, isDigitSeq a ∧ isDigitSeq b ∧ isDigitSeq c ∧
    (v.data = a ++ '.' :: (b ++ '.' :: c) ∨
      ∃ d : List Char, isDigitSeq d ∧
        v.data = a ++ '.' :: (b ++ '.' :: (c ++ '-' :: 'd' :: 'e' :: 'v' :: d)))

/-- Whether a character list does not start with a digit (the boundary
condition after a greedy `\d+` match). -/
def headNotDigit : List Char → Prop
  | [] => True
  | c :: _ => c.isDigit = false

theorem digitChar_spec (m : Nat) (h : m < 10) :
    (digitChar m).isDigit = true ∧ (digitChar m).toNat = 48 + m := by
  interval_cases m <;> exact ⟨by decide, by decide⟩

theorem digitsVal_append_single (l : List Char) (c : Char) :
    digitsVal (l ++ [c]) = 10 * digitsVal l + (c.toNat - 48) := by
  simp [digitsVal, List.foldl_append]

theorem natReprAux_spec (fuel : Nat) :
    ∀ n, n < fuel → natReprAux fuel n ≠ [] ∧
      (∀ c ∈ natReprAux fuel n, c.isDigit = true) ∧ digitsVal (natReprAux fuel n) = n := by
  induction fuel with
  | zero => intro n h; omega
  | succ fuel ih =>
    intro n h
    by_cases h10 : n < 10
    · refine ⟨by simp [natReprAux, h10], ?_, ?_⟩
      · intro c hc
        simp [natReprAux, h10] at hc
        exact hc ▸ (digitChar_spec n h10).1
      · have ht := (digitChar_spec n h10).2
        simp [natReprAux, h10, digitsVal, ht]
    · have hdiv : n / 10 < n := Nat.div_lt_self (by omega) (by omega)
      have hfuel : n / 10 < fuel := by omega
      obtain ⟨ihne, ihdig, ihval⟩ := ih (n / 10) hfuel
      have hmod : n % 10 < 10 := Nat.mod_lt n (by omega)
      refine ⟨by simp [natReprAux, h10], ?_, ?_⟩
      · intro c hc
        simp only [natReprAux, if_neg h10, List.mem_append, List.mem_singleton] at hc
        rcases hc with hc | hc
        · exact ihdig c hc
        · exact hc ▸ (digitChar_spec (n % 10) hmod).1
      · have ht := (digitChar_spec (n % 10) hmod).2
        have hdm := Nat.div_add_mod n 10
        simp only [natReprAux, if_neg h10, digitsVal_append_single, ihval, ht]
        omega

theorem natReprChars_spec (n : Nat) :
    isDigitSeq (natReprChars n) ∧ digitsVal (natReprChars n) = n := by
  obtain ⟨h1, h2, h3⟩ := natReprAux_spec (n + 1) n (Nat.lt_succ_self n)
  exact ⟨⟨h1, h2⟩, h3⟩

theorem spanDigits_append (a r : List Char) (ha : ∀ c ∈ a, c.isDigit = true)
    (hr : headNotDigit r) : spanDigits (a ++ r) = (a, r) := by
  induction a with
  | nil =>
    simp only [List.nil_append, spanDigits]
    cases r with
    | nil => rfl
    | cons c r2 =>
      simp only [headNotDigit] at hr
      simp [List.takeWhile_cons, List.dropWhile_cons, hr]
  | cons x xs ih =>
    have hx : x.isDigit = true := ha x (by simp)
    have ih2 := ih (fun c hc => ha c (by simp [hc]))
    have h1 := congrArg Prod.fst ih2
    have h2 := congrArg Prod.snd ih2
    simp only [spanDigits] at h1 h2
    simp only [List.cons_append, spanDigits, List.takeWhile_cons, List.dropWhile_cons, hx,
      if_pos, h1, h2]

theorem spanDigits_inv (l a r : List Char) (h : spanDigits l = (a, r)) :
    l = a ++ r ∧ (∀ c ∈ a, c.isDigit = true) ∧ headNotDigit r := by
  have h1 := congrArg Prod.fst h
  have h2 := congrArg Prod.snd h
  simp only [spanDigits] at h1 h2
  refine ⟨?_, ?_, ?_⟩
  · rw [← h1, ← h2, List.takeWhile_append_dropWhile]
  · intro c hc
    exact List.mem_takeWhile_imp (h1 ▸ hc)
  · have hh := List.head?_dropWhile_not Char.isDigit l
    rw [h2] at hh
    cases r with
    | nil => trivial
    | cons c r2 => simpa [headNotDigit] using hh

theorem parseNum_append (a r : List Char) (ha : isDigitSeq a) (hr : headNotDigit r) :
    parseNum (a ++ r) = some (digitsVal a, r) := by
  simp [parseNum, spanDigits_append a r ha.2 hr, ha.1]

theorem parseNum_inv (l : List Char) (n : Nat) (r : List Char) (h : parseNum l = some (n, r)) :
    ∃ a, l = a ++ r ∧ isDigitSeq a ∧ n = digitsVal a ∧ headNotDigit r := by
  unfold parseNum at h
  rcases hsp : spanDigits l with ⟨a, r0⟩
  rw [hsp] at h
  by_cases ha : a = []
  · simp [ha] at h
  · simp only [if_neg ha, Option.some.injEq, Prod.mk.injEq] at h
    obtain ⟨hl, hdig, hhead⟩ := spanDigits_inv l a r0 hsp
    exact ⟨a, by rw [hl, h.2], ⟨ha, hdig⟩, h.1.symm, h.2 ▸ hhead⟩

theorem expectChar_inv (ch : Char) (l r : List Char) (h : expectChar ch l = some r) :
    l = ch :: r := by
  cases l with
  | nil => simp [expectChar] at h
  | cons c rest =>
    by_cases hc : c = ch
    · simp [expectChar, hc] at h
      rw [hc, h]
    · simp [expectChar, hc] at h

theorem dropLit_append (lit r : List Char) : dropLit lit (lit ++ r) = some r := by
  induction lit with
  | nil => rfl
  | cons c cs ih => simp [dropLit, ih]

theorem dropLit_inv (lit : List Char) :
    ∀ l r, dropLit lit l = some r → l = lit ++ r := by
  induction lit with
  | nil => intro l r h; simpa [dropLit] using h
  | cons c cs ih =>
    intro l r h
    cases l with
    | nil => simp [dropLit] at h
    | cons d ds =>
      by_cases hc : c = d
      · subst hc
        simp only [dropLit, if_pos rfl] at h
        simpa using ih ds r h
      · simp [dropLit, hc] at h

theorem parseChars_decomp_nodev (a b c : List Char) (ha : isDigitSeq a) (hb : isDigitSeq b)
    (hc : isDigitSeq c) :
    parseChars (a ++ '.' :: (b ++ '.' :: c)) = some ⟨digitsVal a, digitsVal b, digitsVal c, none⟩ := by
  have h1 := parseNum_append a ('.' :: (b ++ '.' :: c)) ha (by simp [headNotDigit])
  have h2 := parseNum_append b ('.' :: c) hb (by simp [headNotDigit])
  have h3 : parseNum c = some (digitsVal c, []) := by
    simpa using parseNum_append c [] hc trivial
  simp [parseChars, h1, h2, h3, expectChar]

theorem parseChars_decomp_dev (a b c d : List Char) (ha : isDigitSeq a) (hb : isDigitSeq b)
    (hc : isDigitSeq c) (hd : isDigitSeq d) :
    parseChars (a ++ '.' :: (b ++ '.' :: (c ++ '-' :: 'd' :: 'e' :: 'v' :: d)))
      = some ⟨digitsVal a, digitsVal b, digitsVal c, some (digitsVal d)⟩ := by
  have h1 := parseNum_append a ('.' :: (b ++ '.' :: (c ++ '-' :: 'd' :: 'e' :: 'v' :: d))) ha
    (by simp [headNotDigit])
  have h2 := parseNum_append b ('.' :: (c ++ '-' :: 'd' :: 'e' :: 'v' :: d)) hb
    (by simp [headNotDigit])
  have h3 := parseNum_append c ('-' :: 'd' :: 'e' :: 'v' :: d) hc (by simp [headNotDigit])
  have h4 : dropLit ['-', 'd', 'e', 'v'] ('-' :: 'd' :: 'e' :: 'v' :: d) = some d :=
    dropLit_append ['-', 'd', 'e', 'v'] d
  have h5 : parseNum d = some (digitsVal d, []) := by
    simpa using parseNum_append d [] hd trivial
  simp [parseChars, h1, h2, h3, expectChar, h4, h5]

theorem parseChars_some_inv (l : List Char) (h : HeadVersion) (hp : parseChars l = some h) :
    ∃ a b c : List Char, isDigitSeq a ∧ isDigitSeq b ∧ isDigitSeq c ∧
      ((l = a ++ '.' :: (b ++ '.' :: c) ∧ h = ⟨digitsVal a, digitsVal b, digitsVal c, none⟩) ∨
        ∃ d : List Char, isDigitSeq d ∧
          l = a ++ '.' :: (b ++ '.' :: (c ++ '-' :: 'd' :: 'e' :: 'v' :: d)) ∧
          h = ⟨digitsVal a, digitsVal b, digitsVal c, some (digitsVal d)⟩) := by
  unfold parseChars at hp
  rcases hp1 : parseNum l with - | ⟨n1, r1⟩ <;> rw [hp1] at hp <;> dsimp only at hp
  · exact absurd hp (by simp)
  rcases hq1 : expectChar '.' r1 with - | r2 <;> rw [hq1] at hp <;> dsimp only at hp
  · exact absurd hp (by simp)
  rcases hp2 : parseNum r2 with - | ⟨n2, r3⟩ <;> rw [hp2] at hp <;> dsimp only at hp
  · exact absurd hp (by simp)
  rcases hq2 : expectChar '.' r3 with - | r4 <;> rw [hq2] at hp <;> dsimp only at hp
  · exact absurd hp (by simp)
  rcases hp3 : parseNum r4 with - | ⟨n3, r5⟩ <;> rw [hp3] at hp <;> dsimp only at hp
  · exact absurd hp (by simp)
  obtain ⟨a, hla, hsa, hna, -⟩ := parseNum_inv l n1 r1 hp1
  have hr1 : r1 = '.' :: r2 := expectChar_inv '.' r1 r2 hq1
  obtain ⟨b, hlb, hsb, hnb, -⟩ := parseNum_inv r2 n2 r3 hp2
  have hr3 : r3 = '.' :: r4 := expectChar_inv '.' r3 r4 hq2
  obtain ⟨c, hlc, hsc, hnc, -⟩ := parseNum_inv r4 n3 r5 hp3
  refine ⟨a, b, c, hsa, hsb, hsc, ?_⟩
  cases r5 with
  | nil =>
    simp only [Option.some.injEq] at hp
    left
    constructor
    · rw [hla, hr1, hlb, hr3, hlc]
      simp
    · rw [← hp, hna, hnb, hnc]
  | cons x xs =>
    dsimp only at hp
    rcases hd6 : dropLit ['-', 'd', 'e', 'v'] (x :: xs) with - | r6 <;> rw [hd6] at hp <;>
      dsimp only at hp
    · exact absurd hp (by simp)
    rcases hp4 : parseNum r6 with - | ⟨n4, r7⟩ <;> rw [hp4] at hp <;> dsimp only at hp
    · exact absurd hp (by simp)
    obtain ⟨d, hld, hsd, hnd, -⟩ := parseNum_inv r6 n4 r7 hp4
    cases r7 with
    | nil =>
      simp only [Option.some.injEq] at hp
      right
      have hxs : x :: xs = '-' :: 'd' :: 'e' :: 'v' :: r6 :=
        dropLit_inv ['-', 'd', 'e', 'v'] (x :: xs) r6 hd6
      refine ⟨d, hsd, ?_, ?_⟩
      · rw [hla, hr1, hlb, hr3, hlc, hxs, hld]
        simp
      · rw [← hp, hna, hnb, hnc, hnd]
    | cons y ys => exact absurd hp (by simp)

theorem parseChars_hvChars (w : HeadVersion) : parseChars (hvChars w) = some w := by
  obtain ⟨ma, mi, pa, de⟩ := w
  obtain ⟨hma, vma⟩ := natReprChars_spec ma
  obtain ⟨hmi, vmi⟩ := natReprChars_spec mi
  obtain ⟨hpa, vpa⟩ := natReprChars_spec pa
  cases de with
  | none =>
    have hd := parseChars_decomp_nodev (natReprChars ma) (natReprChars mi) (natReprChars pa)
      hma hmi hpa
    simp only [hvChars]
    rw [hd, vma, vmi, vpa]
  | some d =>
    obtain ⟨hd0, vd0⟩ := natReprChars_spec d
    have hd := parseChars_decomp_dev (natReprChars ma) (natReprChars mi) (natReprChars pa)
      (natReprChars d) hma hmi hpa hd0
    simp only [hvChars]
    rw [hd, vma, vmi, vpa, vd0]

theorem parse_version_str (w : HeadVersion) : parse_version (HeadVersion.str w) = .ok w := by
  unfold parse_version HeadVersion.str
  rw [show (String.mk (hvChars w)).data = hvChars w from rfl, parseChars_hvChars w]

theorem concatLines_cons (s : String) (rest : List String) :
    concatLines (s :: rest) = String.mk (s.data ++ (concatLines rest).data) := rfl

theorem concatLines_splitLinesAux :
    ∀ (l acc : List Char), concatLines (splitLinesAux l acc) = String.mk (acc.reverse ++ l) := by
  intro l acc
  induction l, acc using splitLinesAux.induct <;>
    simp_all [splitLinesAux, concatLines_cons, concatLines, String.ext_iff]

theorem concatLines_splitLines (s : String) : concatLines (splitLines s) = s := by
  cases s with
  | mk data =>
    rw [splitLines, show (String.mk data).data = data from rfl,
      concatLines_splitLinesAux data []]
    simp

theorem initTransformLines_true (v : String) (ls : List String) :
    initTransformLines v true ls = ls := by
  induction ls with
  | nil => rfl
  | cons l rest ih => simp [initTransformLines, ih]

theorem initTransformLines_nomatch (v : String) (ls : List String)
    (h : ∀ l ∈ ls, fullmatchVersionLine l = false) :
    initTransformLines v false ls = ls := by
  induction ls with
  | nil => rfl
  | cons l rest ih =>
    have hl : fullmatchVersionLine l = false := h l (by simp)
    simp only [initTransformLines, hl, Bool.not_false, Bool.and_false]
    simp only [Bool.and_eq_true] at *
    rw [if_neg (by simp [hl]), ih (fun x hx => h x (by simp [hx]))]

theorem initTransformLines_first (v : String) (p : List String) (m : String) (s : List String)
    (hp : ∀ l ∈ p, fullmatchVersionLine l = false) (hm : fullmatchVersionLine m = true) :
    initTransformLines v false (p ++ m :: s) = p ++ newVersionLine v :: s := by
  induction p with
  | nil => simp [initTransformLines, hm, initTransformLines_true]
  | cons l rest ih =>
    have hl : fullmatchVersionLine l = false := hp l (by simp)
    simp only [List.cons_append, initTransformLines]
    rw [if_neg (by simp [hl])]
    exact congrArg (List.cons l) (ih (fun x hx => hp x (by simp [hx])))

theorem replaceDescend_ok (parts : List String) :
    ∀ t key value, ∃ t2, replaceDescend t parts key value = .ok t2 := by
  induction parts with
  | nil => intro t key value; exact ⟨setKey t key (.str value), rfl⟩
  | cons p rest ih =>
    intro t key value
    rcases hl : lookupToml t p with - | it
    · obtain ⟨s2, hs2⟩ := ih [] key value
      refine ⟨setKey t p (.table s2), ?_⟩
      simp [replaceDescend, hl, hs2]
    · by_cases ht : it.isTable = true
      · rcases it with s | entries | -
        · simp [Toml.isTable] at ht
        · obtain ⟨s2, hs2⟩ := ih entries key value
          refine ⟨setKey t p (.table s2), ?_⟩
          simp [replaceDescend, hl, Toml.isTable, hs2]
        · simp [Toml.isTable] at ht
      · obtain ⟨s2, hs2⟩ := ih [] key value
        refine ⟨setKey t p (.table s2), ?_⟩
        simp [replaceDescend, hl, ht, hs2]

theorem fullmatch_newVersionLine (v : String) :
    fullmatchVersionLine (newVersionLine v) = versionLineTail (v.data ++ ['"', '\n']) := by
  cases v with
  | mk data => rfl

theorem versionLineTail_quote_nl (d : List Char) (hn : '\n' ∉ d) :
    versionLineTail (d ++ ['"', '\n']) = true := by
  unfold versionLineTail
  have h1 : (d ++ ['"', '\n']).reverse = '\n' :: '"' :: d.reverse := by simp
  rw [h1, List.dropWhile_cons_of_pos (by decide), List.dropWhile_cons_of_neg (by decide)]
  simp [hn]

/-- Claim C1: for every previously committed version p read from history,
`calculate_bumped_version` follows the bump-mode transition table: RELEASE
drops a present dev marker with numbers unchanged, else advances the patch;
DEV advances the patch and starts the dev counter at 1 when absent, else
increments the dev counter with the patch unchanged; in particular on the
zero sentinel (manifest absent at the tip) RELEASE yields 0.0.1 and DEV
yields 0.0.1-dev1. -/
theorem claim1_bump_transition_table :
    (∀ (repo : Repo) (p : HeadVersion), read_head_version repo = .ok p →
      (∀ d, p.dev = some d →
        calculate_bumped_version repo .RELEASE none
            = .ok (p, HeadVersion.str ⟨p.major, p.minor, p.patch, none⟩) ∧
        calculate_bumped_version repo .DEV none
            = .ok (p, HeadVersion.str ⟨p.major, p.minor, p.patch, some (d + 1)⟩)) ∧
      (p.dev = none →
        calculate_bumped_version repo .RELEASE none
            = .ok (p, HeadVersion.str ⟨p.major, p.minor, p.patch + 1, none⟩) ∧
        calculate_bumped_version repo .DEV none
            = .ok (p, HeadVersion.str ⟨p.major, p.minor, p.patch + 1, some 1⟩))) ∧
    calculate_bumped_version ⟨false, none⟩ .RELEASE none = .ok (ZERO_VERSION_SENTINEL, "0.0.1") ∧
    calculate_bumped_version ⟨false, none⟩ .DEV none = .ok (ZERO_VERSION_SENTINEL, "0.0.1-dev1") := by
  refine ⟨?_, rfl, rfl⟩
  intro repo p h
  constructor
  · intro d hd
    constructor <;> simp [calculate_bumped_version, h, hd]
  · intro hd
    constructor <;> simp [calculate_bumped_version, h, hd]

/-- Witness for claim C1: a repository whose committed version is
1.2.3-dev5 bumps to 1.2.3-dev6 under DEV. -/
theorem claim1_witness :
    calculate_bumped_version
        ⟨false, some (.blob [( "project", .table [( "version", .str "1.2.3-dev5")])])⟩ .DEV none
      = .ok (⟨1, 2, 3, some 5⟩, HeadVersion.str ⟨1, 2, 3, some (5 + 1)⟩) :=
  ((claim1_bump_transition_table.1
    ⟨false, some (.blob [( "project", .table [( "version", .str "1.2.3-dev5")])])⟩
    ⟨1, 2, 3, some 5⟩ rfl).1 5 rfl).2

/-- Claim C6: SPECIFIC mode returns the caller's string verbatim without
validation, for every repository state, and the previous-version component
of the result is the zero sentinel. -/
theorem claim6_specific_passthrough :
    (∀ (repo : Repo) (v : String),
      calculate_bumped_version repo .SPECIFIC (some v) = .ok (ZERO_VERSION_SENTINEL, v)) ∧
    calculate_bumped_version ⟨true, none⟩ .SPECIFIC (some "not a version!")
      = .ok (ZERO_VERSION_SENTINEL, "not a version!") :=
  ⟨fun _ _ => rfl, rfl⟩

/-- Claim C9: SPECIFIC mode with no payload string reports the error
"specific version required" and computes no version. -/
theorem claim9_specific_requires_payload (repo : Repo) :
    calculate_bumped_version repo .SPECIFIC none = .error (.exit "specific version required") :=
  rfl

/-- Counterexample to claim C3 as stated: the version text 01.2.3 matches
the grammar (with a leading zero in the major component) but renders back
as 1.2.3, which differs from the input. -/
theorem claim3_counterexample :
    matchesGrammar "01.2.3" ∧
      Except.map HeadVersion.str (parse_version "01.2.3") = .ok "1.2.3" ∧
      ( "1.2.3" : String) ≠ "01.2.3" := by
  refine ⟨⟨['0', '1'], ['2'], ['3'], ⟨by decide, by decide⟩, ⟨by decide, by decide⟩,
    ⟨by decide, by decide⟩, Or.inl (by decide)⟩, rfl, by decide⟩

/-- Claim C3 as amended: render-parse round-tripping holds for every
grammar text whose numeric components are written canonically (no leading
zeros), i.e. for every text that is the rendering of some version value:
parsing such a text returns exactly that value and re-rendering reproduces
the text character for character. -/
theorem claim3_amended_roundtrip (w : HeadVersion) :
    parse_version (HeadVersion.str w) = .ok w ∧
      Except.map HeadVersion.str (parse_version (HeadVersion.str w)) = .ok (HeadVersion.str w) := by
  refine ⟨parse_version_str w, ?_⟩
  rw [parse_version_str w]
  rfl

/-- Claim C8: parsing succeeds exactly on the texts of the grammar
`\d+\.\d+\.\d+(-dev\d+)?`; every other text is rejected with the
"unsupported version format" report (the MalformedVersion error of the
specification), as the concrete examples 1.2, 1.2.3.4, v1.2.3 and
1.2.3-dev illustrate. -/
theorem claim8_parse_iff_grammar :
    (∀ v : String, (∃ h, parse_version v = .ok h) ↔ matchesGrammar v) ∧
    (∀ v : String, ¬ matchesGrammar v →
      parse_version v = .error (.exit ( "unsupported version format: " ++ v))) ∧
    parse_version "1.2" = .error (.exit "unsupported version format: 1.2") ∧
    parse_version "1.2.3.4" = .error (.exit "unsupported version format: 1.2.3.4") ∧
    parse_version "v1.2.3" = .error (.exit "unsupported version format: v1.2.3") ∧
    parse_version "1.2.3-dev" = .error (.exit "unsupported version format: 1.2.3-dev") := by
  have main : ∀ v : String, (∃ h, parse_version v = .ok h) ↔ matchesGrammar v := by
    intro v
    constructor
    · rintro ⟨h, hok⟩
      unfold parse_version at hok
      rcases hpc : parseChars v.data with - | h0 <;> rw [hpc] at hok
      · exact absurd hok (by simp)
      · obtain ⟨a, b, c, hsa, hsb, hsc, hor⟩ := parseChars_some_inv v.data h0 hpc
        refine ⟨a, b, c, hsa, hsb, hsc, ?_⟩
        rcases hor with ⟨heq, -⟩ | ⟨d, hsd, heq, -⟩
        · exact Or.inl heq
        · exact Or.inr ⟨d, hsd, heq⟩
    · rintro ⟨a, b, c, hsa, hsb, hsc, hor⟩
      unfold parse_version
      rcases hor with heq | ⟨d, hsd, heq⟩
      · rw [heq, parseChars_decomp_nodev a b c hsa hsb hsc]
        exact ⟨_, rfl⟩
      · rw [heq, parseChars_decomp_dev a b c d hsa hsb hsc hsd]
        exact ⟨_, rfl⟩
  refine ⟨main, ?_, rfl, rfl, rfl, rfl⟩
  intro v hng
  unfold parse_version
  rcases hpc : parseChars v.data with - | h0
  · rfl
  · exact absurd ((main v).mp ⟨h0, by unfold parse_version; rw [hpc]⟩) hng

/-- Witness for claim C8: 1.2.3 parses successfully, and the non-grammar
text xyz is rejected with the format report. -/
theorem claim8_witness :
    (∃ h, parse_version "1.2.3" = .ok h) ∧
      parse_version "xyz" = .error (.exit ( "unsupported version format: " ++ "xyz")) := by
  constructor
  · exact (claim8_parse_iff_grammar.1 "1.2.3").mpr ⟨['1'], ['2'], ['3'],
      ⟨by decide, by decide⟩, ⟨by decide, by decide⟩, ⟨by decide, by decide⟩, Or.inl (by decide)⟩
  · refine claim8_parse_iff_grammar.2.1 "xyz" ?_
    rintro ⟨a, b, c, hsa, hsb, hsc, hor⟩
    have hdot : ('.' : Char) ∈ ( "xyz" : String).data := by
      rcases hor with heq | ⟨d, hsd, heq⟩ <;> rw [heq] <;> simp
    exact absurd hdot (by decide)

/-- Claim C7: the constant-source transform replaces exactly the first
line matching the version pattern with the freshly rendered assignment
line, passes every other line through unchanged (later matching lines
included), and when no line matches it rewrites the file with
byte-identical content and the operation succeeds. -/
theorem claim7_first_match_only :
    (∀ (v m : String) (p s : List String), (∀ l ∈ p, fullmatchVersionLine l = false) →
      fullmatchVersionLine m = true →
      initTransformLines v false (p ++ m :: s) = p ++ newVersionLine v :: s) ∧
    (∀ (v : String) (ls : List String), (∀ l ∈ ls, fullmatchVersionLine l = false) →
      initTransformLines v false ls = ls) ∧
    (∀ (v content : String), (∀ l ∈ splitLines content, fullmatchVersionLine l = false) →
      update_init_content v content = content ∧
      update_init_version v content ⟨none, none, true⟩ = (⟨content, false⟩, .ok ())) := by
  refine ⟨fun v m p s hp hm => initTransformLines_first v p m s hp hm,
    fun v ls h => initTransformLines_nomatch v ls h, ?_⟩
  intro v content h
  have hc : update_init_content v content = content := by
    rw [update_init_content, initTransformLines_nomatch v (splitLines content) h,
      concatLines_splitLines]
  refine ⟨hc, ?_⟩
  simp [update_init_version, hc]

/-- Witness for claim C7: with two pattern-matching lines in the file,
only the first is rewritten and the second is untouched. -/
theorem claim7_witness :
    initTransformLines "2.0.0" false
        ([ "# header\n"] ++ "VERSION: Final[str] = \"1.0.0\"\n" ::
          [ "VERSION: Final[str] = \"9.9.9\"\n"])
      = [ "# header\n"] ++ newVersionLine "2.0.0" :: [ "VERSION: Final[str] = \"9.9.9\"\n"] :=
  claim7_first_match_only.1 "2.0.0" "VERSION: Final[str] = \"1.0.0\"\n" [ "# header\n"]
    [ "VERSION: Final[str] = \"9.9.9\"\n"] (by decide) (by decide)

/-- Claim C2: for each of the two target files, any failure while
transforming into the temporary file or while atomically replacing leaves
the target content unchanged, removes the temporary file whenever the
best-effort deletion succeeds, surfaces the original failure as the
target-specific update-failed report, and a deletion failure never changes
the reported outcome. -/
theorem claim2_atomic_failure_protocol :
    (∀ (v content : String) (io : IOFault),
      io.transformError ≠ none ∨ io.replaceError ≠ none →
      (update_init_version v content io).1.target = content ∧
      (io.removeOk = true → (update_init_version v content io).1.tempRemains = false) ∧
      (update_init_version v content io).2
        = .error (.exit "failed to update VERSION constant in __init__.py")) ∧
    (∀ (v now : String) (doc : TomlTable) (io : IOFault),
      io.transformError ≠ none ∨ io.replaceError ≠ none →
      (update_pyproject_version v now doc io).1.target = doc ∧
      (io.removeOk = true → (update_pyproject_version v now doc io).1.tempRemains = false) ∧
      ∃ cause, (update_pyproject_version v now doc io).2
        = .error (.exit ( "failed to update pyproject.toml: " ++ cause ++
            "; project may be in an inconsistent version state"))) ∧
    (∀ (v content : String) (te re : Option String),
      (update_init_version v content ⟨te, re, true⟩).2
        = (update_init_version v content ⟨te, re, false⟩).2) ∧
    (∀ (v now : String) (doc : TomlTable) (te re : Option String),
      (update_pyproject_version v now doc ⟨te, re, true⟩).2
        = (update_pyproject_version v now doc ⟨te, re, false⟩).2) := by
  refine ⟨?_, ?_, ?_, ?_⟩
  · intro v content io hfail
    rcases io with ⟨te, re, rok⟩
    rcases te with - | e
    · rcases re with - | e2
      · simp at hfail
      · simp [update_init_version]
    · simp [update_init_version]
  · intro v now doc io hfail
    rcases io with ⟨te, re, rok⟩
    rcases te with - | e
    · rcases re with - | e2
      · simp at hfail
      · obtain ⟨d1, hd1⟩ := replaceDescend_ok (splitOnDot "project") doc "version" v
        obtain ⟨d2, hd2⟩ := replaceDescend_ok (splitOnDot "tool.uv") d1 "exclude-newer" now
        refine ⟨?_, ?_, e2, ?_⟩ <;>
          simp [update_pyproject_version, update_pyproject_content, replace_key_in_section,
            hd1, hd2]
    · refine ⟨rfl, ?_, e, rfl⟩
      intro hr
      change rok = true at hr
      simp [update_pyproject_version, hr]
  · intro v content te re
    rcases te with - | e
    · rcases re with - | e2 <;> rfl
    · rfl
  · intro v now doc te re
    rcases te with - | e
    · rcases re with - | e2 <;>
        cases hc : update_pyproject_content v now doc <;>
          simp [update_pyproject_version, hc]
    · rfl

/-- Witness for claim C2: a simulated disk-full failure during the
transform of the constant-source file leaves the target unchanged, leaves
no temporary file behind, and reports the fixed update failure. -/
theorem claim2_witness :
    (update_init_version "1.0.0" "VERSION: Final[str] = \"0.0.9\"\n"
        ⟨some "disk full", none, true⟩).1.target = "VERSION: Final[str] = \"0.0.9\"\n" ∧
    (update_init_version "1.0.0" "VERSION: Final[str] = \"0.0.9\"\n"
        ⟨some "disk full", none, true⟩).1.tempRemains = false ∧
    (update_init_version "1.0.0" "VERSION: Final[str] = \"0.0.9\"\n"
        ⟨some "disk full", none, true⟩).2
      = .error (.exit "failed to update VERSION constant in __init__.py") := by
  obtain ⟨h1, h2, h3⟩ := claim2_atomic_failure_protocol.1 "1.0.0"
    "VERSION: Final[str] = \"0.0.9\"\n" ⟨some "disk full", none, true⟩ (Or.inl (by decide))
  exact ⟨h1, h2 rfl, h3⟩

/-- Counterexample to claim C4 as stated: the entry "tool" exists and is a
string, not a table, yet the structured edit at path tool.uv succeeds (no
StructuredEditFailed report) and destroys the string by replacing it with
a fresh nested table. -/
theorem claim4_counterexample :
    Toml.isTable (.str "oops") = false ∧
    lookupToml [( "tool", .str "oops")] "tool" = some (.str "oops") ∧
    replace_key_in_section [( "tool", .str "oops")] "tool.uv" "exclude-newer" "T"
      = .ok [( "tool", .table [( "uv", .table [( "exclude-newer", .str "T")])])] :=
  ⟨rfl, rfl, rfl⟩

/-- Claim C4 as amended: the structured edit never fails (in particular it
never reports StructuredEditFailed: the source's descent guard is
unreachable); when an entry existing along the nested path is not itself a
table, the edit silently overwrites that entry with a fresh empty table
and continues the descent inside it. -/
theorem claim4_nontable_overwritten (doc : TomlTable) (sp key value : String) :
    (∃ doc2, replace_key_in_section doc sp key value = .ok doc2) ∧
    (∀ p rest it, splitOnDot sp = p :: rest → lookupToml doc p = some it →
      it.isTable = false →
      ∃ s2, replaceDescend [] rest key value = .ok s2 ∧
        replace_key_in_section doc sp key value = .ok (setKey doc p (.table s2))) := by
  constructor
  · exact replaceDescend_ok (splitOnDot sp) doc key value
  · intro p rest it hsplit hlook hnt
    obtain ⟨s2, hs2⟩ := replaceDescend_ok rest [] key value
    refine ⟨s2, hs2, ?_⟩
    unfold replace_key_in_section
    rw [hsplit]
    simp [replaceDescend, hlook, hnt, hs2]

/-- Witness for claim C4 as amended: editing tool.uv when "tool" holds a
string overwrites the string with a nested table and succeeds. -/
theorem claim4_witness :
    ∃ s2, replaceDescend [] [ "uv"] "exclude-newer" "T" = .ok s2 ∧
      replace_key_in_section [( "tool", .str "x")] "tool.uv" "exclude-newer" "T"
        = .ok (setKey [( "tool", .str "x")] "tool" (.table s2)) :=
  (claim4_nontable_overwritten [( "tool", .str "x")] "tool.uv" "exclude-newer" "T").2
    "tool" [ "uv"] (.str "x") rfl rfl rfl

/-- Counterexample to claim C5 as stated: a repository whose committed
manifest exists at the tip as a healthy regular file with version text
0.0.0 also makes the reader return the zero sentinel, so the manifest
being absent is not the only source of that result. -/
theorem claim5_counterexample :
    read_head_version ⟨false, some (.blob [( "project", .table [( "version", .str "0.0.0")])])⟩
        = .ok ZERO_VERSION_SENTINEL ∧
    (some (GitObject.blob [( "project", .table [( "version", .str "0.0.0")])]) ≠
      (none : Option GitObject)) :=
  ⟨rfl, by simp⟩

/-- Claim C5 as amended: a bare repository is rejected first; an absent
manifest at the tip returns the zero sentinel; a non-blob manifest object
and a blob whose project entry is absent, or is a table without a textual
version field, are reported as corrupt-manifest errors; a blob whose
project entry exists but is not a table raises an uncaught AttributeError
instead; and a blob with a textual version field returns the result of
parsing that text, which yields the zero sentinel again when the text is
0.0.0. -/
theorem claim5_head_version_characterization :
    (∀ o, read_head_version ⟨true, o⟩
      = .error (.exit "a working tree, not a bare git repository, is required")) ∧
    read_head_version ⟨false, none⟩ = .ok ZERO_VERSION_SENTINEL ∧
    read_head_version ⟨false, some .nonBlob⟩
      = .error (.exit "pyproject.toml is in HEAD, but not a regular file") ∧
    (∀ doc, lookupToml doc "project" = none →
      read_head_version ⟨false, some (.blob doc)⟩
        = .error (.exit "version missing in pyproject.toml in HEAD")) ∧
    (∀ doc proj, lookupToml doc "project" = some (.table proj) →
      (∀ s, lookupToml proj "version" ≠ some (.str s)) →
      read_head_version ⟨false, some (.blob doc)⟩
        = .error (.exit "version missing in pyproject.toml in HEAD")) ∧
    (∀ doc it, lookupToml doc "project" = some it → it.isTable = false →
      read_head_version ⟨false, some (.blob doc)⟩ = .error (.raised "AttributeError")) ∧
    (∀ doc proj s, lookupToml doc "project" = some (.table proj) →
      lookupToml proj "version" = some (.str s) →
      read_head_version ⟨false, some (.blob doc)⟩ = parse_version s) := by
  refine ⟨fun o => rfl, rfl, rfl, ?_, ?_, ?_, ?_⟩
  · intro doc hl
    simp [read_head_version, hl]
  · intro doc proj hl hv
    rcases hv2 : lookupToml proj "version" with - | it
    · simp [read_head_version, hl, hv2]
    · rcases it with s | entries | -
      · exact absurd hv2 (hv s)
      · simp [read_head_version, hl, hv2]
      · simp [read_head_version, hl, hv2]
  · intro doc it hl hnt
    rcases it with s | entries | -
    · simp [read_head_version, hl]
    · simp [Toml.isTable] at hnt
    · simp [read_head_version, hl]
  · intro doc proj s hl hv
    simp [read_head_version, hl, hv]

/-- Witness for claim C5 as amended: a committed textual version 7.8.9 is
parsed from the blob at the tip. -/
theorem claim5_witness :
    read_head_version ⟨false, some (.blob [( "project", .table [( "version", .str "7.8.9")])])⟩
      = parse_version "7.8.9" :=
  claim5_head_version_characterization.2.2.2.2.2.2
    [( "project", .table [( "version", .str "7.8.9")])]
    [( "version", .str "7.8.9")] "7.8.9" rfl rfl

/-- Counterexample to claim C10 as stated: the version text containing a
newline but no double-quote produces an assignment line that the pattern
does not match (the regex dot does not match a newline inside the string
literal), so quote-freedom alone does not guarantee re-matchability. -/
theorem claim10_counterexample :
    ('"' ∉ ( "1\n2" : String).data) ∧
      fullmatchVersionLine (newVersionLine "1\n2") = false :=
  ⟨by decide, by decide⟩

/-- Claim C10 as amended: for every new version text containing neither a
double-quote nor a newline character, the freshly written assignment line
itself matches the constant-assignment search pattern, so a later run of
the transform finds and replaces it again. -/
theorem claim10_written_line_rematches (v : String) (_hq : '"' ∉ v.data)
    (hn : '\n' ∉ v.data) :
    fullmatchVersionLine (newVersionLine v) = true := by
  rw [fullmatch_newVersionLine]
  exact versionLineTail_quote_nl v.data hn

/-- Witness for claim C10 as amended: the line written for 3.4.5-dev7
matches the pattern again. -/
theorem claim10_witness : fullmatchVersionLine (newVersionLine "3.4.5-dev7") = true :=
  claim10_written_line_rematches "3.4.5-dev7" (by decide) (by decide)
